import Mathlib

/-!
# Verification of the anime-bot download/upload pipeline

Shallow embedding of the core of the `anime-bot` repository
(`src/anime_bot/downloader.py`, `tasks.py`, `utils.py`, `db.py`,
`cleanup.py`) together with proofs about the embedded definitions.

Conventions used throughout:
* Python `None` is `Option.none`; a function that may return `None` or raise
  is embedded with an `Option`/sum-typed result.
* Outcomes of calls into external collaborators (the AnimePahe client, the
  filesystem, Telegram) are supplied as explicit oracle values, with a
  three-way outcome type distinguishing a truthy return, a falsy return
  (`None`/`False`) and a raised exception.
* Machine integers are `Int`/`Nat`; none of the embedded quantities overflow
  in the source (Python integers are unbounded anyway).
-/

namespace AnimeBot

/-! ## Stream variants and selection (downloader.py, lines 160-202)

`get_stream_qualities` produces a list of dicts with keys `quality_val`
(an `int`, defaulting to 0 on parse failure), `audio` (a string or `None`)
and `url` (a string or `None`), sorted ascending by `quality_val`.
`download_episode` then selects one variant (lines 164-192). -/

structure StreamVariant where
  /-- `quality_val`: parsed resolution, 0 when unparseable. -/
  quality : Int
  /-- `data-audio` attribute; `None` when missing. -/
  audio : Option String
  /-- `data-src` attribute; `None` when missing. -/
  url : Option String
deriving DecidableEq, Repr

/-- Lines 164-169: `audio_streams = [s for s in streams if s.get("audio") == audio]`,
falling back to the full `streams` list when the filter is empty. -/
def audioCandidates (streams : List StreamVariant) (audio : String) : List StreamVariant :=
  let audio_streams := streams.filter (fun s => s.audio = some audio)
  if audio_streams.isEmpty then streams else audio_streams

/-- Lines 172-192: scan `cand` (already ascending by quality) for the first
variant with `quality_val >= target_quality`; record `stream_qual`/`stream_lang`
only in that branch.  Otherwise fall back to the last element, leaving
`stream_qual = None` and `stream_lang = None`.
Returns `(selected_stream, stream_qual, stream_lang)`. -/
def qualitySelect (cand : List StreamVariant) (target : Int) :
    Option StreamVariant × Option Int × Option String :=
  match cand.find? (fun s => decide (target ≤ s.quality)) with
  | some s => (some s, some s.quality, s.audio)
  | none => (cand.getLast?, none, none)

/-- The full variant-selection logic of `download_episode` (lines 164-192):
audio soft-filter, then quality scan with highest-available fallback. -/
def selectStream (streams : List StreamVariant) (target : Int) (audio : String) :
    Option StreamVariant :=
  (qualitySelect (audioCandidates streams audio) target).1

/-- `List.find?` returns the first element satisfying the predicate:
everything strictly before it fails the predicate. -/
theorem find?_decomp {α : Type} (p : α → Bool) :
    ∀ (l : List α) (a : α), l.find? p = some a →
      p a = true ∧ ∃ l1 l2, l = l1 ++ a :: l2 ∧ ∀ x ∈ l1, p x = false := by
  intro l
  induction l with
  | nil => intro a h; simp [List.find?] at h
  | cons x xs ih =>
    intro a h
    by_cases hx : p x = true
    · rw [List.find?_cons_of_pos _ hx] at h
      cases h
      exact ⟨hx, [], xs, rfl, by simp⟩
    · have hx' : p x = false := by
        cases hpx : p x
        · rfl
        · exact absurd hpx hx
      rw [List.find?_cons_of_neg _ (by simp [hx'])] at h
      obtain ⟨hpa, l1, l2, heq, hall⟩ := ih a h
      refine ⟨hpa, x :: l1, l2, by simp [heq], ?_⟩
      intro y hy
      rcases List.mem_cons.mp hy with rfl | hy'
      · exact hx'
      · exact hall y hy'

/-- In a list sorted (pairwise) by `f`, the last element is a maximum. -/
theorem pairwise_getLast?_max {α : Type} (f : α → Int) :
    ∀ (l : List α) (a : α), l.Pairwise (fun x y => f x ≤ f y) →
      l.getLast? = some a → ∀ x ∈ l, f x ≤ f a := by
  intro l
  induction l with
  | nil => intro a _ h; simp at h
  | cons y ys ih =>
    intro a hpw hlast x hx
    rcases List.pairwise_cons.mp hpw with ⟨hy, hys⟩
    cases ys with
    | nil =>
      simp [List.getLast?] at hlast
      subst hlast
      simp at hx
      subst hx
      exact le_refl _
    | cons z zs =>
      have hlast' : (z :: zs).getLast? = some a := by
        simpa [List.getLast?_cons_cons] using hlast
      have ha' := ih a hys hlast'
      rcases List.mem_cons.mp hx with rfl | hx'
      · exact hy a (List.mem_of_mem_getLast? hlast')
      · exact ha' x hx'

/-- The audio soft-filter (lines 164-169): the candidate set is a sublist of
the input; if any variant matches the desired audio every candidate does;
and the candidate set is empty only when the input is. -/
theorem audioCandidates_spec (streams : List StreamVariant) (audio : String) :
    (audioCandidates streams audio).Sublist streams ∧
    ((∃ t ∈ streams, t.audio = some audio) →
      ∀ x ∈ audioCandidates streams audio, x.audio = some audio) ∧
    (audioCandidates streams audio = [] → streams = []) := by
  unfold audioCandidates
  by_cases hemp : (streams.filter (fun s => decide (s.audio = some audio))).isEmpty = true
  · rw [List.isEmpty_iff] at hemp
    refine ⟨by simp [hemp], ?_, by simp [hemp]⟩
    rintro ⟨t, ht, hta⟩
    exfalso
    have : t ∈ streams.filter (fun s => decide (s.audio = some audio)) :=
      List.mem_filter.mpr ⟨ht, by simp [hta]⟩
    simp [hemp] at this
  · have hemp' : (streams.filter (fun s => decide (s.audio = some audio))).isEmpty = false :=
      Bool.not_eq_true _ |>.mp hemp
    refine ⟨?_, ?_, ?_⟩
    · simp only [hemp', Bool.false_eq_true, if_false]
      exact List.filter_sublist streams
    · intro _ x hx
      simp only [hemp', Bool.false_eq_true, if_false] at hx
      exact of_decide_eq_true (List.mem_filter.mp hx).2
    · intro h
      simp only [hemp', Bool.false_eq_true, if_false] at h
      rw [h] at hemp'
      simp at hemp'

/-- A nonempty list has a last element. -/
theorem getLast?_isSome_of_ne_nil {α : Type} (l : List α) (h : l ≠ []) :
    ∃ a, l.getLast? = some a := by
  cases hl : l.getLast? with
  | some a => exact ⟨a, rfl⟩
  | none => exact absurd (List.getLast?_eq_none_iff.mp hl) h

/-- **C1** Stream variant selection: for every ascending-by-quality stream
list, desired quality and audio, the selector restricts to audio-matching
variants (falling back to the full set when none match, so whenever some
variant matches the desired audio the selected one does); within that
candidate set it picks the first variant (in list order) whose quality meets
or exceeds the target; if none does, it picks the last (highest-quality)
variant; and a variant is always selected when the stream list is nonempty. -/
theorem stream_variant_selection (streams : List StreamVariant) (target : Int)
    (audio : String) (hne : streams ≠ [])
    (hsorted : streams.Pairwise (fun a b => a.quality ≤ b.quality)) :
    ∃ s, selectStream streams target audio = some s ∧
      s ∈ audioCandidates streams audio ∧
      ((∃ t ∈ streams, t.audio = some audio) → s.audio = some audio) ∧
      ((∃ t ∈ audioCandidates streams audio, target ≤ t.quality) →
        target ≤ s.quality ∧
        ∃ l1 l2, audioCandidates streams audio = l1 ++ s :: l2 ∧
          ∀ t ∈ l1, t.quality < target) ∧
      ((∀ t ∈ audioCandidates streams audio, t.quality < target) →
        (audioCandidates streams audio).getLast? = some s ∧
        ∀ t ∈ audioCandidates streams audio, t.quality ≤ s.quality) := by
  classical
  set cand := audioCandidates streams audio with hcand
  obtain ⟨hsub, haudio, hnil⟩ := audioCandidates_spec streams audio
  have hcand_sorted : cand.Pairwise (fun a b => a.quality ≤ b.quality) :=
    hsorted.sublist hsub
  have hcand_ne : cand ≠ [] := fun hc => hne (hnil hc)
  cases hfind : cand.find? (fun s => decide (target ≤ s.quality)) with
  | some s =>
    obtain ⟨hps, l1, l2, heq, hall⟩ := find?_decomp _ cand s hfind
    have hsel : selectStream streams target audio = some s := by
      unfold selectStream qualitySelect
      rw [← hcand, hfind]
    have hmem : s ∈ cand := by rw [heq]; simp
    refine ⟨s, hsel, hmem, fun hex => haudio hex s hmem, fun _ => ?_, fun hlt => ?_⟩
    · refine ⟨of_decide_eq_true hps, l1, l2, heq, fun t ht => ?_⟩
      have := hall t ht
      simpa using of_decide_eq_false this
    · exact absurd (of_decide_eq_true hps) (not_le.mpr (hlt s hmem))
  | none =>
    obtain ⟨a, ha⟩ := getLast?_isSome_of_ne_nil cand hcand_ne
    have hsel : selectStream streams target audio = some a := by
      unfold selectStream qualitySelect
      rw [← hcand, hfind, ha]
    have hmem : a ∈ cand := List.mem_of_mem_getLast? ha
    have hnone := List.find?_eq_none.mp hfind
    refine ⟨a, hsel, hmem, fun hex => haudio hex a hmem, fun hex => ?_, fun _ => ?_⟩
    · obtain ⟨t, ht, htq⟩ := hex
      exact absurd (decide_eq_true htq) (by simpa using hnone t ht)
    · exact ⟨ha, fun t ht => pairwise_getLast?_max _ cand a hcand_sorted ha t ht⟩

/-- Concrete instantiation of `stream_variant_selection` on the spec's example
stream list (360p/jpn, 720p/jpn, 1080p/eng) with desired quality 480/jpn. -/
theorem stream_variant_selection_witness :
    ∃ s, selectStream
        [⟨360, some "jpn", some "u1"⟩, ⟨720, some "jpn", some "u2"⟩,
         ⟨1080, some "eng", some "u3"⟩] 480 "jpn" = some s ∧
      s ∈ audioCandidates
        [⟨360, some "jpn", some "u1"⟩, ⟨720, some "jpn", some "u2"⟩,
         ⟨1080, some "eng", some "u3"⟩] "jpn" ∧
      ((∃ t ∈ [(⟨360, some "jpn", some "u1"⟩ : StreamVariant), ⟨720, some "jpn", some "u2"⟩,
         ⟨1080, some "eng", some "u3"⟩], t.audio = some "jpn") → s.audio = some "jpn") ∧
      ((∃ t ∈ audioCandidates
          [⟨360, some "jpn", some "u1"⟩, ⟨720, some "jpn", some "u2"⟩,
           ⟨1080, some "eng", some "u3"⟩] "jpn", (480 : Int) ≤ t.quality) →
        (480 : Int) ≤ s.quality ∧
        ∃ l1 l2, audioCandidates
          [⟨360, some "jpn", some "u1"⟩, ⟨720, some "jpn", some "u2"⟩,
           ⟨1080, some "eng", some "u3"⟩] "jpn" = l1 ++ s :: l2 ∧
          ∀ t ∈ l1, t.quality < 480) ∧
      ((∀ t ∈ audioCandidates
          [⟨360, some "jpn", some "u1"⟩, ⟨720, some "jpn", some "u2"⟩,
           ⟨1080, some "eng", some "u3"⟩] "jpn", t.quality < 480) →
        (audioCandidates
          [⟨360, some "jpn", some "u1"⟩, ⟨720, some "jpn", some "u2"⟩,
           ⟨1080, some "eng", some "u3"⟩] "jpn").getLast? = some s ∧
        ∀ t ∈ audioCandidates
          [⟨360, some "jpn", some "u1"⟩, ⟨720, some "jpn", some "u2"⟩,
           ⟨1080, some "eng", some "u3"⟩] "jpn", t.quality ≤ s.quality) :=
  stream_variant_selection _ 480 "jpn" (by decide) (by decide)

/-! ## The download engine (downloader.py, `download_episode`, lines 129-282)

Calls into the AnimePahe client and the filesystem are supplied as oracle
outcomes.  `download_episode_async` is always `None` (line 29), so the
blocking `download_from_playlist` path is the one taken. -/

/-- Mirror of the `EpisodeDownloadResult` class (lines 33-60).  The Python
code stores `None` in `episode_qual` on the downgrade path even though the
parameter is annotated `int`, hence `Option Int` here. -/
structure EpisodeDownloadResult where
  episode : Nat
  episode_qual : Option Int
  episode_lang : String
  filepath : Option String
  success : Bool
  reason : Option String
deriving DecidableEq, Repr

/-- Outcome of a call into a collaborator: a truthy return value, a falsy
return (`None`/`False`), or a raised exception carrying `str(exc)`. -/
inductive CallOutcome (α : Type) where
  | ok (a : α)
  | err
  | raise (msg : String)
deriving DecidableEq

/-- Oracle for one run of `download_episode`: the outcome of each
collaborator call, plus the result of `int(quality)` (`none` models the
`ValueError` caught on line 193). -/
structure DownloadEnv where
  /-- `get_stream_qualities` (line 160); `err` = returned `None`. -/
  streams : CallOutcome (List StreamVariant)
  /-- `int(quality)` (line 177); `none` = `ValueError`. -/
  qualityParsed : Option Int
  /-- `get_playlist_url` (line 205); `err` = falsy URL. -/
  playlistUrl : CallOutcome String
  /-- `download_playlist` (line 217); `err` = falsy path. -/
  playlistPath : CallOutcome String
  /-- `download_from_playlist` (line 241); `err` = returned `False`. -/
  segmentsOk : CallOutcome Unit
  /-- `compile_video` (line 253); `err` = returned falsy. -/
  compiledOk : CallOutcome Unit
  /-- whether the temp dir holds an already-finished `.mp4`/`.mkv`
  (lines 256-260), consulted only when compilation failed. -/
  leftoverMedia : Bool
deriving DecidableEq

/-- Lines 275-279 of the `finally` block: remove the temp dir only if it
still exists, with `shutil.rmtree(..., ignore_errors=True)`.  Input: whether
the directory exists.  Output: (directory exists afterwards, step raised). -/
def removeTmpdirStep (dirExists : Bool) : Bool × Bool :=
  if dirExists then (false, false) else (dirExists, false)

/-- Observable outcome of one `download_episode` run: the returned value
(`none` = the Python function returned `None`), the client operations invoked
in order, and the lifecycle of the per-episode temp directory. -/
structure DownloadRun where
  result : Option EpisodeDownloadResult
  calls : List String
  tmpdirCreated : Bool
  cleanupRan : Bool
  tmpdirExistsAfter : Bool
deriving DecidableEq

/-- Line 251: `f"{anime_title.replace('/', '_')}_ep{episode_number}.mp4"`. -/
def outputFilename (animeTitle : String) (episodeNumber : Nat) : String :=
  String.map (fun c => if c = '/' then '_' else c) animeTitle ++
    "_ep" ++ toString episodeNumber ++ ".mp4"

/-- Shallow embedding of `AnimeDownloaderService.download_episode`
(lines 157-282).  Exceptions raised by collaborator calls reach the outer
`except` (line 280) and yield `EpisodeDownloadResult(ep, 0, "", None, False,
str(exc))`; exceptions raised after the temp dir exists additionally pass
through the `finally` cleanup (line 273). -/
def downloadEpisode (env : DownloadEnv) (animeTitle : String) (episodeNumber : Nat)
    (audio : String) : DownloadRun :=
  -- line 160: the remote page fetch happens before anything else
  let calls0 := ["get_stream_qualities"]
  match env.streams with
  | .raise m =>
      { result := some ⟨episodeNumber, some 0, "", none, false, some m⟩,
        calls := calls0, tmpdirCreated := false, cleanupRan := false,
        tmpdirExistsAfter := false }
  | .err =>
      -- `streams` is None: iterating it on line 164 raises TypeError,
      -- caught by the outer handler
      { result := some ⟨episodeNumber, some 0, "", none, false,
          some "argument of type NoneType is not iterable"⟩,
        calls := calls0, tmpdirCreated := false, cleanupRan := false,
        tmpdirExistsAfter := false }
  | .ok streams =>
    let audio_streams := audioCandidates streams audio
    match env.qualityParsed with
    | none =>
        -- line 193-197: ValueError from int(quality) → log and `return None`
        { result := none, calls := calls0, tmpdirCreated := false,
          cleanupRan := false, tmpdirExistsAfter := false }
    | some target =>
      let stream_qual := (qualitySelect audio_streams target).2.1
      let stream_lang := (qualitySelect audio_streams target).2.2
      -- line 199: `if not selected_stream:`
      if (qualitySelect audio_streams target).1.isNone then
          -- line 200-202
          { result := some ⟨episodeNumber, some 0, stream_lang.getD "", none,
              false, some "No stream URL"⟩,
            calls := calls0, tmpdirCreated := false, cleanupRan := false,
            tmpdirExistsAfter := false }
      else
        -- line 205
        let calls1 := calls0 ++ ["get_playlist_url"]
        match env.playlistUrl with
        | .raise m =>
            { result := some ⟨episodeNumber, some 0, "", none, false, some m⟩,
              calls := calls1, tmpdirCreated := false, cleanupRan := false,
              tmpdirExistsAfter := false }
        | .err =>
            -- line 206-209
            { result := some ⟨episodeNumber, some 0, stream_lang.getD "", none,
                false, some "No playlist URL"⟩,
              calls := calls1, tmpdirCreated := false, cleanupRan := false,
              tmpdirExistsAfter := false }
        | .ok _purl =>
          -- line 212: tempfile.mkdtemp; from here on, every exit runs the
          -- `finally` cleanup of lines 273-279
          let cleanup := removeTmpdirStep true
          let exits := fun (r : Option EpisodeDownloadResult) (cs : List String) =>
            { result := r, calls := cs, tmpdirCreated := true,
              cleanupRan := true, tmpdirExistsAfter := cleanup.1 : DownloadRun }
          let calls2 := calls1 ++ ["download_playlist"]
          match env.playlistPath with
          | .raise m => exits (some ⟨episodeNumber, some 0, "", none, false, some m⟩) calls2
          | .err =>
              -- line 218-221
              exits (some ⟨episodeNumber, some 0, stream_lang.getD "", none,
                false, some "Failed to fetch playlist"⟩) calls2
          | .ok _ppath =>
            -- line 241 (async helper unavailable, blocking path)
            let calls3 := calls2 ++ ["download_from_playlist"]
            match env.segmentsOk with
            | .raise m => exits (some ⟨episodeNumber, some 0, "", none, false, some m⟩) calls3
            | .err =>
                -- line 245-248
                exits (some ⟨episodeNumber, some 0, stream_lang.getD "", none,
                  false, some "Failed to download segments"⟩) calls3
            | .ok _ =>
              -- lines 251-253
              let calls4 := calls3 ++ ["compile_video"]
              let outputPath := outputFilename animeTitle episodeNumber
              match env.compiledOk with
              | .raise m => exits (some ⟨episodeNumber, some 0, "", none, false, some m⟩) calls4
              | .err =>
                  if env.leftoverMedia then
                    -- lines 255-264: move the found media file into place
                    exits (some ⟨episodeNumber, stream_qual, stream_lang.getD "",
                      some outputPath, true, none⟩) calls4
                  else
                    -- line 265-268
                    exits (some ⟨episodeNumber, some 0, stream_lang.getD "", none,
                      false, some "Failed to compile video"⟩) calls4
              | .ok _ =>
                  -- lines 270-272
                  exits (some ⟨episodeNumber, stream_qual, stream_lang.getD "",
                    some outputPath, true, none⟩) calls4

/-- On every branch of `download_episode` the cleanup step runs exactly when
the temp directory was created, and afterwards the directory is gone. -/
theorem downloadEpisode_cleanup_invariant (env : DownloadEnv) (animeTitle : String)
    (episodeNumber : Nat) (audio : String) :
    (downloadEpisode env animeTitle episodeNumber audio).cleanupRan =
      (downloadEpisode env animeTitle episodeNumber audio).tmpdirCreated ∧
    (downloadEpisode env animeTitle episodeNumber audio).tmpdirExistsAfter = false := by
  simp only [downloadEpisode]
  repeat' split
  all_goals simp [removeTmpdirStep]

/-- **C7** Temporary working-directory cleanup: whenever `download_episode`
creates the per-episode temp directory, the removal step runs on that exit
path and the directory is gone afterwards — for every oracle outcome, i.e.
on success, on every stage failure and on every exception; moreover the
removal step never raises, in particular when invoked while the directory no
longer exists (idempotence). -/
theorem temp_workdir_cleanup (env : DownloadEnv) (animeTitle : String)
    (episodeNumber : Nat) (audio : String)
    (hcreated : (downloadEpisode env animeTitle episodeNumber audio).tmpdirCreated = true) :
    (downloadEpisode env animeTitle episodeNumber audio).cleanupRan = true ∧
    (downloadEpisode env animeTitle episodeNumber audio).tmpdirExistsAfter = false ∧
    (∀ dirExists : Bool, (removeTmpdirStep dirExists).2 = false) ∧
    (removeTmpdirStep (removeTmpdirStep true).1).2 = false ∧
    (removeTmpdirStep (removeTmpdirStep true).1).1 = false := by
  obtain ⟨h1, h2⟩ := downloadEpisode_cleanup_invariant env animeTitle episodeNumber audio
  exact ⟨h1.trans hcreated, h2, fun d => by cases d <;> rfl, rfl, rfl⟩

/-- Concrete instantiation of `temp_workdir_cleanup`: a run in which the
segment download fails after the temp directory was created. -/
theorem temp_workdir_cleanup_witness :
    (downloadEpisode ⟨.ok [⟨720, some "jpn", some "u"⟩], some 720, .ok "pu",
        .ok "pp", .err, .ok (), false⟩ "Title" 1 "jpn").cleanupRan = true ∧
    (downloadEpisode ⟨.ok [⟨720, some "jpn", some "u"⟩], some 720, .ok "pu",
        .ok "pp", .err, .ok (), false⟩ "Title" 1 "jpn").tmpdirExistsAfter = false ∧
    (∀ dirExists : Bool, (removeTmpdirStep dirExists).2 = false) ∧
    (removeTmpdirStep (removeTmpdirStep true).1).2 = false ∧
    (removeTmpdirStep (removeTmpdirStep true).1).1 = false :=
  temp_workdir_cleanup _ "Title" 1 "jpn" (by decide)

/-- **C4** (observed behavior at an unparseable quality): with a quality
string for which `int(quality)` raises (e.g. `"abc"`), `download_episode`
still performs the remote `get_stream_qualities` call first, and then
returns Python `None` rather than an `EpisodeDownloadResult` failure. -/
theorem invalid_quality_returns_none_after_remote_call :
    (downloadEpisode ⟨.ok [⟨720, some "jpn", some "u"⟩], none, .ok "pu",
        .ok "pp", .ok (), .ok (), false⟩ "Title" 1 "jpn").result = none ∧
    (downloadEpisode ⟨.ok [⟨720, some "jpn", some "u"⟩], none, .ok "pu",
        .ok "pp", .ok (), .ok (), false⟩ "Title" 1 "jpn").calls =
      ["get_stream_qualities"] := by
  constructor <;> rfl

/-! ## Ledger records (db.py lines 36-80, models.py, tasks.py lines 136-152) -/

/-- The Telegram message handle returned by the chat collaborator. -/
structure MessageHandle where
  chat_id : Int
  id : Int
deriving DecidableEq, Repr

/-- Mirror of the `UploadedFile` row built by `insert_uploaded_file`
(db.py lines 64-76); the DB-generated `id` and `created_at` columns are
omitted.  `ep_qual` is `Option Int` because the orchestrator passes
`res.episode_qual`, which is `None` on the downgrade path. -/
structure UploadedFile where
  anime_title : String
  episode : Nat
  uploaded_chat_id : Int
  uploader_user_id : Int
  uploaded_message_id : Int
  vault_chat_id : Int
  vault_message_id : Int
  ep_lang : String
  ep_qual : Option Int
  filename : String
  filesize : Option Int
deriving DecidableEq, Repr

/-- `insert_uploaded_file` (db.py lines 36-80): note that `vault_chat_id`
and `vault_message_id` are populated from the same `chat_id`/`message_id`
arguments as the `uploaded_*` columns. -/
def insert_uploaded_file (anime_title : String) (episode : Nat)
    (chat_id uploader_id : Int) (ep_lang : String) (ep_qual : Option Int)
    (message_id : Int) (filename : String) (filesize : Option Int) : UploadedFile :=
  { anime_title := anime_title
    episode := episode
    uploaded_chat_id := chat_id
    uploader_user_id := uploader_id
    uploaded_message_id := message_id
    vault_chat_id := chat_id
    vault_message_id := message_id
    ep_lang := ep_lang
    ep_qual := ep_qual
    filename := filename
    filesize := filesize }

/-- Chat collaborator model: `uploader.upload_file(dest, ...)` (uploader.py
lines 33-63) sends the file into `dest` and returns the handle of the
message delivered there. -/
def sendFileTo (destChat : Int) (messageId : Int) : MessageHandle :=
  ⟨destChat, messageId⟩

/-- tasks.py lines 136-152: the upload destination is
`settings.vault_channel_id` (line 139) — the requester's chat id appears only
in the caption — and the ledger insert (lines 148-150) receives
`msg.chat_id`, `msg.id`, `res.episode_lang` and `res.episode_qual`. -/
def uploadAndRecord (vaultChannelId requesterChatId uploaderId messageId : Int)
    (title : String) (ep : Nat) (res : EpisodeDownloadResult)
    (filename : String) (filesize : Option Int) : MessageHandle × UploadedFile :=
  let _caption := title ++ " - Episode " ++ toString ep ++
    " Uploaded by: " ++ toString requesterChatId
  let msg := sendFileTo vaultChannelId messageId
  (msg, insert_uploaded_file title ep msg.chat_id uploaderId
    res.episode_lang res.episode_qual msg.id filename filesize)

/-- **C9** Ledger vault invariant: every record created by a successful
upload back-references the delivered message — `(uploaded_chat_id,
uploaded_message_id)` equals the chat/message id of the message the chat
collaborator delivered — and the `vault_*` fields hold the configured vault
channel (the canonical storage location), which is distinct from the
requester's chat whenever the configured vault channel differs from it. -/
theorem ledger_vault_invariant (vaultChannelId requesterChatId uploaderId messageId : Int)
    (title : String) (ep : Nat) (res : EpisodeDownloadResult)
    (filename : String) (filesize : Option Int)
    (hdistinct : vaultChannelId ≠ requesterChatId) :
    (uploadAndRecord vaultChannelId requesterChatId uploaderId messageId
        title ep res filename filesize).2.uploaded_chat_id =
      (uploadAndRecord vaultChannelId requesterChatId uploaderId messageId
        title ep res filename filesize).1.chat_id ∧
    (uploadAndRecord vaultChannelId requesterChatId uploaderId messageId
        title ep res filename filesize).2.uploaded_message_id =
      (uploadAndRecord vaultChannelId requesterChatId uploaderId messageId
        title ep res filename filesize).1.id ∧
    (uploadAndRecord vaultChannelId requesterChatId uploaderId messageId
        title ep res filename filesize).2.vault_chat_id = vaultChannelId ∧
    (uploadAndRecord vaultChannelId requesterChatId uploaderId messageId
        title ep res filename filesize).2.vault_message_id =
      (uploadAndRecord vaultChannelId requesterChatId uploaderId messageId
        title ep res filename filesize).1.id ∧
    (uploadAndRecord vaultChannelId requesterChatId uploaderId messageId
        title ep res filename filesize).2.vault_chat_id ≠ requesterChatId := by
  refine ⟨rfl, rfl, rfl, rfl, ?_⟩
  simpa [uploadAndRecord, insert_uploaded_file, sendFileTo] using hdistinct

/-- Concrete instantiation of `ledger_vault_invariant` (vault channel −100,
requester chat 42). -/
theorem ledger_vault_invariant_witness :
    (uploadAndRecord (-100) 42 7 555 "Title" 3
        ⟨3, some 720, "jpn", some "f.mp4", true, none⟩ "f.mp4"
        (some 1000)).2.uploaded_chat_id =
      (uploadAndRecord (-100) 42 7 555 "Title" 3
        ⟨3, some 720, "jpn", some "f.mp4", true, none⟩ "f.mp4"
        (some 1000)).1.chat_id ∧
    (uploadAndRecord (-100) 42 7 555 "Title" 3
        ⟨3, some 720, "jpn", some "f.mp4", true, none⟩ "f.mp4"
        (some 1000)).2.uploaded_message_id =
      (uploadAndRecord (-100) 42 7 555 "Title" 3
        ⟨3, some 720, "jpn", some "f.mp4", true, none⟩ "f.mp4"
        (some 1000)).1.id ∧
    (uploadAndRecord (-100) 42 7 555 "Title" 3
        ⟨3, some 720, "jpn", some "f.mp4", true, none⟩ "f.mp4"
        (some 1000)).2.vault_chat_id = -100 ∧
    (uploadAndRecord (-100) 42 7 555 "Title" 3
        ⟨3, some 720, "jpn", some "f.mp4", true, none⟩ "f.mp4"
        (some 1000)).2.vault_message_id =
      (uploadAndRecord (-100) 42 7 555 "Title" 3
        ⟨3, some 720, "jpn", some "f.mp4", true, none⟩ "f.mp4"
        (some 1000)).1.id ∧
    (uploadAndRecord (-100) 42 7 555 "Title" 3
        ⟨3, some 720, "jpn", some "f.mp4", true, none⟩ "f.mp4"
        (some 1000)).2.vault_chat_id ≠ 42 :=
  ledger_vault_invariant (-100) 42 7 555 "Title" 3
    ⟨3, some 720, "jpn", some "f.mp4", true, none⟩ "f.mp4" (some 1000) (by decide)

/-- **C10** Downgrade placeholder metadata: when no audio-filtered candidate
meets the requested quality (the downgrade branch) and the remaining stages
succeed, the successful result carries `episode_qual = None` and
`episode_lang = ""` instead of the selected variant's actual quality/audio,
and the orchestrator's ledger insert stores exactly those placeholders. -/
theorem downgrade_result_placeholders (env : DownloadEnv) (title : String)
    (ep : Nat) (audio : String) (streamsList : List StreamVariant) (target : Int)
    (purl ppath : String)
    (hstreams : env.streams = .ok streamsList)
    (hq : env.qualityParsed = some target)
    (hne : audioCandidates streamsList audio ≠ [])
    (hlt : ∀ t ∈ audioCandidates streamsList audio, t.quality < target)
    (hpu : env.playlistUrl = .ok purl)
    (hpp : env.playlistPath = .ok ppath)
    (hseg : env.segmentsOk = .ok ())
    (hcomp : env.compiledOk = .ok ()) :
    (downloadEpisode env title ep audio).result =
      some ⟨ep, none, "", some (outputFilename title ep), true, none⟩ ∧
    ∀ (vaultChannelId requesterChatId uploaderId messageId : Int)
      (fn : String) (fs : Option Int) (r : EpisodeDownloadResult),
      (downloadEpisode env title ep audio).result = some r →
      (uploadAndRecord vaultChannelId requesterChatId uploaderId messageId
        title ep r fn fs).2.ep_qual = none ∧
      (uploadAndRecord vaultChannelId requesterChatId uploaderId messageId
        title ep r fn fs).2.ep_lang = "" := by
  have hfind : (audioCandidates streamsList audio).find?
      (fun s => decide (target ≤ s.quality)) = none := by
    rw [List.find?_eq_none]
    intro x hx
    simpa using not_le.mpr (hlt x hx)
  obtain ⟨a, ha⟩ := getLast?_isSome_of_ne_nil _ hne
  have hqs : qualitySelect (audioCandidates streamsList audio) target =
      (some a, none, none) := by
    unfold qualitySelect
    rw [hfind, ha]
  obtain ⟨es, eqp, epu, epp, eseg, ecomp, elm⟩ := env
  simp only [DownloadEnv.streams, DownloadEnv.qualityParsed, DownloadEnv.playlistUrl,
    DownloadEnv.playlistPath, DownloadEnv.segmentsOk,
    DownloadEnv.compiledOk] at hstreams hq hpu hpp hseg hcomp
  subst hstreams hq hpu hpp hseg hcomp
  have hres : (downloadEpisode
      ⟨.ok streamsList, some target, .ok purl, .ok ppath, .ok (), .ok (), elm⟩
      title ep audio).result =
      some ⟨ep, none, "", some (outputFilename title ep), true, none⟩ := by
    simp [downloadEpisode, hqs]
  refine ⟨hres, ?_⟩
  intro vId rId uId mId fn fs r hr
  rw [hres] at hr
  cases hr
  exact ⟨rfl, rfl⟩

/-- Concrete instantiation of `downgrade_result_placeholders`: only a
360p/jpn variant is available but 720p is requested. -/
theorem downgrade_result_placeholders_witness :
    (downloadEpisode ⟨.ok [⟨360, some "jpn", some "u"⟩], some 720, .ok "pu",
        .ok "pp", .ok (), .ok (), false⟩ "Title" 2 "jpn").result =
      some ⟨2, none, "", some (outputFilename "Title" 2), true, none⟩ ∧
    ∀ (vaultChannelId requesterChatId uploaderId messageId : Int)
      (fn : String) (fs : Option Int) (r : EpisodeDownloadResult),
      (downloadEpisode ⟨.ok [⟨360, some "jpn", some "u"⟩], some 720, .ok "pu",
        .ok "pp", .ok (), .ok (), false⟩ "Title" 2 "jpn").result = some r →
      (uploadAndRecord vaultChannelId requesterChatId uploaderId messageId
        "Title" 2 r fn fs).2.ep_qual = none ∧
      (uploadAndRecord vaultChannelId requesterChatId uploaderId messageId
        "Title" 2 r fn fs).2.ep_lang = "" :=
  downgrade_result_placeholders _ "Title" 2 "jpn" [⟨360, some "jpn", some "u"⟩]
    720 "pu" "pp" rfl rfl (by decide) (by decide) rfl rfl rfl rfl

/-! ## The task orchestrator (tasks.py, `DownloadUploadTask.run`, lines 68-176)

Per-episode behavior as written in the source:
* download failure (`res.success` false): one "Download failed" status,
  sleep, `continue` (lines 93-97);
* `download_episode` returning Python `None`: `res.success` on line 93
  raises `AttributeError`, which nothing in `run` catches;
* metadata/thumbnail extraction (lines 100-108) is *outside* every
  `try`/`except`: an exception there propagates out of `run`;
* the upload block (lines 111-158) is wrapped in `try`/`except`, so an
  upload exception yields one "Upload failed" status and the loop continues;
* the ledger insert (lines 147-152) has its own `try`/`except`: a DB
  failure is logged and "Uploaded ... successfully" is still emitted;
* thumbnail/file removal failures (lines 160-171) are caught and logged.
A propagating exception skips every later episode and the final
"Task finished." status (line 176). -/

/-- Status lines emitted through the orchestrator's `status` callback. -/
inductive TaskStatus where
  | starting
  | preparing (ep : Nat)
  | downloadFailed (ep : Nat) (reason : String)
  | uploading (ep : Nat)
  | uploaded (ep : Nat)
  | uploadFailed (ep : Nat)
  | finished
deriving DecidableEq, Repr

/-- Oracle for the processing of one episode inside `run`. -/
inductive EpisodeRunOutcome where
  /-- `download_episode` returned Python `None` (the invalid-quality path). -/
  | downloaderReturnedNone
  /-- `download_episode` returned a result with `success = False`. -/
  | downloadFailed (reason : String)
  /-- download succeeded; flags: did metadata/thumbnail extraction raise,
  did the upload raise, did the ledger insert raise. -/
  | ok (metadataRaises uploadRaises dbRaises : Bool)
deriving DecidableEq, Repr

/-- Whether processing this episode raises an exception that nothing in
`run` catches (aborting the whole batch). -/
def abortsBatch : EpisodeRunOutcome → Bool
  | .downloaderReturnedNone => true
  | .downloadFailed _ => false
  | .ok metadataRaises _ _ => metadataRaises

/-- Statuses emitted for one episode after its "preparing" line, and whether
an uncaught exception aborted the batch at this episode. -/
def runEpisodeStatuses (n : Nat) : EpisodeRunOutcome → List TaskStatus × Bool
  | .downloaderReturnedNone => ([], true)
  | .downloadFailed r => ([.downloadFailed n r], false)
  | .ok metadataRaises uploadRaises _dbRaises =>
      if metadataRaises then ([], true)
      else if uploadRaises then ([.uploading n, .uploadFailed n], false)
      else ([.uploading n, .uploaded n], false)

/-- The episode loop of `run` (lines 84-176): processes episodes strictly in
order; an uncaught exception cuts the loop short and skips the final
"Task finished." status. -/
def runTaskLoop : List (Nat × EpisodeRunOutcome) → List TaskStatus
  | [] => [.finished]
  | (n, o) :: rest =>
      let step := runEpisodeStatuses n o
      if step.2 then TaskStatus.preparing n :: step.1
      else (TaskStatus.preparing n :: step.1) ++ runTaskLoop rest

/-- `DownloadUploadTask.run`: the initial "Starting task" status followed by
the episode loop. -/
def runTask (eps : List (Nat × EpisodeRunOutcome)) : List TaskStatus :=
  TaskStatus.starting :: runTaskLoop eps

/-- The claim "a failure while processing one episode never aborts the
batch" is false as stated: if episode 1's metadata/thumbnail extraction
raises, episode 2 is never attempted and no finished status is emitted. -/
theorem batch_isolation_counterexample :
    runTask [(1, .ok true false false), (2, .downloadFailed "network")] =
      [.starting, .preparing 1] ∧
    TaskStatus.finished ∉
      runTask [(1, .ok true false false), (2, .downloadFailed "network")] ∧
    TaskStatus.preparing 2 ∉
      runTask [(1, .ok true false false), (2, .downloadFailed "network")] := by
  refine ⟨rfl, ?_, ?_⟩ <;> decide

/-- **C2 (amended)** Batch failure isolation for the handled failure kinds:
provided the downloader returns a result object for every episode and no
episode's metadata/thumbnail extraction raises, the orchestrator processes
episodes strictly in the given order, download failures and upload
exceptions never abort the batch — every episode is attempted — and the
final finished status is always emitted. -/
theorem batch_failure_isolation (eps : List (Nat × EpisodeRunOutcome))
    (h : ∀ p ∈ eps, abortsBatch p.2 = false) :
    runTask eps =
      TaskStatus.starting ::
        (eps.flatMap
          (fun p => TaskStatus.preparing p.1 :: (runEpisodeStatuses p.1 p.2).1) ++
          [TaskStatus.finished]) ∧
    TaskStatus.finished ∈ runTask eps ∧
    ∀ p ∈ eps, TaskStatus.preparing p.1 ∈ runTask eps := by
  have hloop : ∀ l : List (Nat × EpisodeRunOutcome),
      (∀ p ∈ l, abortsBatch p.2 = false) →
      runTaskLoop l =
        l.flatMap
          (fun p => TaskStatus.preparing p.1 :: (runEpisodeStatuses p.1 p.2).1) ++
          [TaskStatus.finished] := by
    intro l
    induction l with
    | nil => intro _; rfl
    | cons p rest ih =>
      intro hl
      obtain ⟨n, o⟩ := p
      have hno : abortsBatch o = false := hl (n, o) (List.mem_cons_self _ _)
      have hstep : (runEpisodeStatuses n o).2 = false := by
        cases o with
        | downloaderReturnedNone => simp [abortsBatch] at hno
        | downloadFailed r => rfl
        | ok mr ur dr =>
          cases mr with
          | false => cases ur <;> rfl
          | true => simp [abortsBatch] at hno
      have hrest := ih (fun q hq => hl q (List.mem_cons_of_mem _ hq))
      simp [runTaskLoop, hstep, hrest]
  have hmain := hloop eps h
  refine ⟨by simp [runTask, hmain], ?_, ?_⟩
  · simp [runTask, hmain]
  · intro p hp
    simp only [runTask, hmain, List.mem_cons, List.mem_append, List.mem_flatMap]
    right; left
    exact ⟨p, hp, Or.inl rfl⟩

/-- Concrete instantiation of `batch_failure_isolation`: a 3-episode batch
where episode 2's download fails; episode 3 is still attempted and the batch
finishes. -/
theorem batch_failure_isolation_witness :
    runTask [(1, .ok false false false), (2, .downloadFailed "network"),
        (3, .ok false false false)] =
      TaskStatus.starting ::
        ([(1, EpisodeRunOutcome.ok false false false), (2, .downloadFailed "network"),
          (3, .ok false false false)].flatMap
          (fun p => TaskStatus.preparing p.1 :: (runEpisodeStatuses p.1 p.2).1) ++
          [TaskStatus.finished]) ∧
    TaskStatus.finished ∈
      runTask [(1, .ok false false false), (2, .downloadFailed "network"),
        (3, .ok false false false)] ∧
    ∀ p ∈ [(1, EpisodeRunOutcome.ok false false false), (2, .downloadFailed "network"),
        (3, .ok false false false)],
      TaskStatus.preparing p.1 ∈
        runTask [(1, .ok false false false), (2, .downloadFailed "network"),
          (3, .ok false false false)] :=
  batch_failure_isolation _ (by decide)

/-! ## Catalog cache (utils.py, `load_from_cache`, lines 78-152) -/

/-- One catalog entry, `{"session": slug, "title": title}` (line 143). -/
structure CatalogEntry where
  session : String
  title : String
deriving DecidableEq, Repr

/-- One snapshot line: `line.strip().split("::::", 1)` must unpack into
exactly slug and title; `none` models the `ValueError` raised otherwise. -/
def parseCacheLine (line : String) : Option CatalogEntry :=
  match (line.trim).splitOn "::::" with
  | [] => none
  | [_] => none
  | slug :: rest => some ⟨slug, String.intercalate "::::" rest⟩

/-- `_read_cache` (lines 138-146): parse every line, raising (`none`) on a
malformed line and on an empty result. -/
def readCacheLines (lines : List String) : Option (List CatalogEntry) := do
  let entries ← lines.mapM parseCacheLine
  if entries.isEmpty then none else some entries

/-- On-disk snapshot state as observed by `load_from_cache`: whether the
file exists, whether `_is_fresh` holds (mtime within 1 day, lines 115-122),
and the file's lines. -/
structure CacheState where
  fileExists : Bool
  fresh : Bool
  lines : List String
deriving DecidableEq, Repr

/-- Observable outcome of one `load_from_cache` call. -/
structure LoadOutcome where
  entries : List CatalogEntry
  /-- the staleness branch (line 127) was taken. -/
  refreshBranchTaken : Bool
  /-- the provider's `download_anime_list_cache` refresh actually ran. -/
  providerRefreshInvoked : Bool
deriving DecidableEq, Repr

/-- `load_from_cache` (lines 112-152).  On the stale branch, line 131
submits `lambda: api._api.download_anime_list_cache` to the executor:
evaluating the lambda returns the bound method object without calling it,
so no refresh is performed and the on-disk state is unchanged.  Absence of
the file after the branch yields `[]` with a warning (lines 134-136), and
any exception from the read phase is caught on line 150 and yields `[]`. -/
def load_from_cache (st : CacheState) : LoadOutcome :=
  let stale := !(st.fileExists && st.fresh)
  let providerRefreshInvoked := false
  if !st.fileExists then
    { entries := [], refreshBranchTaken := stale, providerRefreshInvoked }
  else
    match readCacheLines st.lines with
    | some es => { entries := es, refreshBranchTaken := stale, providerRefreshInvoked }
    | none => { entries := [], refreshBranchTaken := stale, providerRefreshInvoked }

/-- **C3** (observed behavior): `load_from_cache` never invokes the
provider's cache-refresh operation — in particular not when the snapshot is
absent or stale, where the refresh branch is taken but only a bound-method
reference is evaluated — and an absent file yields an empty sequence rather
than an error. -/
theorem cache_refresh_never_invoked :
    (∀ st : CacheState, (load_from_cache st).providerRefreshInvoked = false) ∧
    load_from_cache ⟨false, false, []⟩ =
      { entries := [], refreshBranchTaken := true, providerRefreshInvoked := false } ∧
    (∀ st : CacheState, st.fileExists = false → (load_from_cache st).entries = []) := by
  refine ⟨fun st => ?_, rfl, fun st h => ?_⟩
  · simp only [load_from_cache]
    repeat' split
    all_goals rfl
  · simp [load_from_cache, h]

/-- Concrete instantiation of `cache_refresh_never_invoked`: an absent but
non-stale-looking snapshot still loads as the empty sequence. -/
theorem cache_refresh_never_invoked_witness :
    (load_from_cache ⟨false, true, ["slug::::Title"]⟩).entries = [] :=
  cache_refresh_never_invoked.2.2 ⟨false, true, ["slug::::Title"]⟩ rfl

/-! ## Episode spec parsing (utils.py, lines 23-55)

Python strings are embedded as `List Char` here, with structurally
recursive split/strip helpers mirroring `str.split` and `str.strip`. -/

/-- `str.split(sep)` for a one-character separator: splits at every
occurrence, keeping empty fields (so the result is always nonempty). -/
def splitChar (sep : Char) : List Char → List (List Char)
  | [] => [[]]
  | c :: cs =>
    if c = sep then [] :: splitChar sep cs
    else
      match splitChar sep cs with
      | [] => [[c]]
      | h :: t => (c :: h) :: t

/-- `str.strip()`: drop leading and trailing whitespace. -/
def trimChars (l : List Char) : List Char :=
  ((l.dropWhile Char.isWhitespace).reverse.dropWhile Char.isWhitespace).reverse

/-- Python `int(...)` on an episode-spec field: succeeds exactly on
nonempty all-digit strings (signs/whitespace never occur in stripped spec
tokens), `none` models the raised `ValueError`. -/
def digitsToNat? (l : List Char) : Option Nat :=
  if l.isEmpty || !l.all Char.isDigit then none
  else some (l.foldl (fun acc c => acc * 10 + (c.toNat - '0'.toNat)) 0)

/-- `\d+`: nonempty and all decimal digits. -/
def isDigitChars (l : List Char) : Bool :=
  !l.isEmpty && l.all Char.isDigit

/-- One token of `EP_SPEC_RE`: `\d+` or `\d+-\d+`. -/
def isSpecToken (t : List Char) : Bool :=
  match splitChar '-' t with
  | [a] => isDigitChars a
  | [a, b] => isDigitChars a && isDigitChars b
  | _ => false

/-- `validate_episode_spec` (lines 25-34): `EP_SPEC_RE =
^\d+(-\d+)?(,\d+(-\d+)?)*$` matched against `spec.strip()` — equivalently,
every comma-separated field of the stripped spec is a token. -/
def validate_episode_spec (spec : String) : Bool :=
  (splitChar ',' (trimChars spec.toList)).all isSpecToken

/-- `range(int(start), int(end) + 1)` (line 51). -/
def rangeTokenEpisodes (s e : Nat) : List Nat :=
  List.range' s (e + 1 - s)

/-- Episodes contributed by one stripped, nonempty token (lines 48-54);
`none` models the `ValueError` raised by `int` on a malformed token. -/
def tokenEpisodes (p : List Char) : Option (List Nat) :=
  if p.contains '-' then
    -- `start, end = part.split("-", 1)`
    let start := p.takeWhile (fun c => c ≠ '-')
    let rest := p.drop (start.length + 1)
    match digitsToNat? start, digitsToNat? rest with
    | some s, some e => some (rangeTokenEpisodes s e)
    | _, _ => none
  else
    (digitsToNat? p).map (fun n => [n])

/-- Insert into a strictly ascending list, keeping it strictly ascending
(ignoring an element already present). -/
def insertSortedDedup (n : Nat) : List Nat → List Nat
  | [] => [n]
  | m :: ms =>
    if n < m then n :: m :: ms
    else if n = m then m :: ms
    else m :: insertSortedDedup n ms

/-- Python's `sorted(set(...))`: the distinct elements in ascending order. -/
def sortedDedup (l : List Nat) : List Nat :=
  l.foldr insertSortedDedup []

/-- `expand_episode_spec_to_list` (lines 37-55): split on commas, strip,
drop empty fields, accumulate all contributed episodes into a set, and
return `sorted(eps)`. -/
def expand_episode_spec_to_list (spec : String) : Option (List Nat) := do
  let parts := ((splitChar ',' spec.toList).map trimChars).filter
    (fun p => !p.isEmpty)
  let epLists ← parts.mapM tokenEpisodes
  some (sortedDedup epLists.flatten)

theorem mem_insertSortedDedup {x n : Nat} :
    ∀ {l : List Nat}, x ∈ insertSortedDedup n l → x = n ∨ x ∈ l := by
  intro l
  induction l with
  | nil => intro h; simpa [insertSortedDedup] using h
  | cons m ms ih =>
    intro h
    unfold insertSortedDedup at h
    by_cases h1 : n < m
    · rw [if_pos h1] at h
      rcases List.mem_cons.mp h with rfl | h'
      · left; rfl
      · right; exact h'
    · by_cases h2 : n = m
      · rw [if_neg h1, if_pos h2] at h
        right; exact h
      · rw [if_neg h1, if_neg h2] at h
        rcases List.mem_cons.mp h with rfl | h'
        · right; exact List.mem_cons_self _ _
        · rcases ih h' with rfl | h''
          · left; rfl
          · right; exact List.mem_cons_of_mem _ h''

theorem insertSortedDedup_sorted (n : Nat) :
    ∀ {l : List Nat}, l.Sorted (· < ·) →
      (insertSortedDedup n l).Sorted (· < ·) := by
  intro l
  induction l with
  | nil => intro _; simp [insertSortedDedup]
  | cons m ms ih =>
    intro h
    rcases List.sorted_cons.mp h with ⟨hm, hms⟩
    unfold insertSortedDedup
    by_cases h1 : n < m
    · simp only [if_pos h1]
      refine List.sorted_cons.mpr ⟨?_, h⟩
      intro b hb
      rcases List.mem_cons.mp hb with rfl | hb'
      · exact h1
      · exact h1.trans (hm b hb')
    · by_cases h2 : n = m
      · simp only [if_neg h1, if_pos h2]
        exact h
      · simp only [if_neg h1, if_neg h2]
        refine List.sorted_cons.mpr ⟨?_, ih hms⟩
        intro b hb
        rcases mem_insertSortedDedup hb with rfl | hb'
        · omega
        · exact hm b hb'

theorem sortedDedup_sorted (l : List Nat) :
    (sortedDedup l).Sorted (· < ·) := by
  induction l with
  | nil => simp [sortedDedup]
  | cons n ns ih => exact insertSortedDedup_sorted n ih

/-- The claim "expand returns distinct positive integers" fails as stated:
the grammar accepts `"0"`, which expands to `[0]`, and `0` is not positive. -/
theorem episode_spec_positive_counterexample :
    validate_episode_spec "0" = true ∧
    expand_episode_spec_to_list "0" = some [0] ∧
    ¬ ∀ n ∈ (expand_episode_spec_to_list "0").getD [], 0 < n := by
  refine ⟨by decide, by decide, ?_⟩
  intro h
  have := h 0 (by decide)
  exact absurd this (by decide)

/-- **C5 (amended)** Episode spec expansion: for every spec string on which
expansion succeeds the result is strictly ascending (hence deduplicated)
regardless of token order or overlap — e.g. `"1,3,5-7,3"` yields
`[1,3,5,6,7]` — the entries are nonnegative integers (the grammar also
admits `0`); and a reversed range like `"5-2"` passes `validate` while
contributing no episodes. -/
theorem episode_spec_expansion :
    (∀ spec l, expand_episode_spec_to_list spec = some l →
      l.Sorted (· < ·)) ∧
    expand_episode_spec_to_list "1,3,5-7,3" = some [1, 3, 5, 6, 7] ∧
    (validate_episode_spec "5-2" = true ∧
      expand_episode_spec_to_list "5-2" = some []) ∧
    (∀ s e : Nat, e < s → rangeTokenEpisodes s e = []) := by
  refine ⟨?_, by decide, ⟨by decide, by decide⟩, ?_⟩
  · intro spec l h
    unfold expand_episode_spec_to_list at h
    simp only [Option.bind_eq_bind, Option.bind_eq_some, Option.some.injEq] at h
    obtain ⟨els, _, hl⟩ := h
    subst hl
    exact sortedDedup_sorted _
  · intro s e he
    unfold rangeTokenEpisodes
    have : e + 1 - s = 0 := by omega
    rw [this]
    rfl

/-- Concrete instantiation of `episode_spec_expansion` on the spec's own
example `"1,3,5-7,3"`. -/
theorem episode_spec_expansion_witness :
    List.Sorted (· < ·) [1, 3, 5, 6, 7] :=
  episode_spec_expansion.1 "1,3,5-7,3" [1, 3, 5, 6, 7] (by decide)

/-! ## Fuzzy matching (utils.py, `fuzzy_score`, lines 154-182; scoring
constants from constants.py lines 31-33)

Python strings are embedded as `List Char`; `str.lower()` becomes a
character-wise `Char.toLower`, and the scan cursor `ti` is represented by
the remaining title suffix `title[ti:]`. -/

def EXACT_MATCH_SCORE : Int := 1000

def POSITION_PENALTY : Int := 2

def CHAR_MATCH_SCORE : Int := 10

/-- `s.lower()` as a character list. -/
def lowerChars (s : String) : List Char :=
  s.toList.map Char.toLower

/-- Python `title.index(query)` / `query in title`: the index of the first
occurrence of `q` as a contiguous substring of `t`, `none` when absent. -/
def substrIndex? (q : List Char) : List Char → Option Nat
  | [] => if q.isEmpty then some 0 else none
  | c :: t => if q.isPrefixOf (c :: t) then some 0
      else (substrIndex? q t).map (· + 1)

/-- `title.find(char, ti)` followed by `ti = pos + 1`, in the cursor-suffix
view: the suffix just past the first occurrence of `c`, or `none` when `c`
does not occur at or after the cursor. -/
def dropPastChar (c : Char) : List Char → Option (List Char)
  | [] => none
  | x :: xs => if x = c then some xs else dropPastChar c xs

/-- The fuzzy-path loop (lines 174-182): walk the query; on a missing
character return 0, otherwise add `CHAR_MATCH_SCORE` and advance the
cursor past the match. -/
def subseqScore : List Char → List Char → Int → Int
  | _, [], score => score
  | rest, c :: q', score =>
    match dropPastChar c rest with
    | none => 0
    | some rest' => subseqScore rest' q' (score + CHAR_MATCH_SCORE)

/-- `fuzzy_score` (lines 154-182): lower-case both strings; exact substring
gives `EXACT_MATCH_SCORE - index * POSITION_PENALTY`, otherwise the
left-to-right subsequence scan. -/
def fuzzy_score (title query : String) : Int :=
  let t := lowerChars title
  let q := lowerChars query
  match substrIndex? q t with
  | some i => EXACT_MATCH_SCORE - (i : Int) * POSITION_PENALTY
  | none => subseqScore t q 0

theorem substrIndex?_sound (q : List Char) :
    ∀ (t : List Char) (i : Nat), substrIndex? q t = some i →
      q <+: t.drop i := by
  intro t
  induction t with
  | nil =>
    intro i h
    unfold substrIndex? at h
    by_cases hq : q.isEmpty
    · rw [if_pos hq] at h
      cases h
      have hq' : q = [] := List.isEmpty_iff.mp hq
      subst hq'
      exact List.nil_prefix
    · rw [if_neg hq] at h
      cases h
  | cons c t' ih =>
    intro i h
    unfold substrIndex? at h
    by_cases hp : q.isPrefixOf (c :: t')
    · rw [if_pos hp] at h
      cases h
      exact List.isPrefixOf_iff_prefix.mp hp
    · rw [if_neg hp] at h
      cases hs : substrIndex? q t' with
      | none => rw [hs] at h; cases h
      | some i' =>
        rw [hs] at h
        simp only [Option.map_some', Option.some.injEq] at h
        subst h
        simpa [List.drop_succ_cons] using ih i' hs

theorem substrIndex?_first (q : List Char) :
    ∀ (t : List Char) (i : Nat), q <+: t.drop i →
      (∀ j < i, ¬ q <+: t.drop j) → substrIndex? q t = some i := by
  intro t
  induction t with
  | nil =>
    intro i hocc hmin
    have hq : q = [] := List.prefix_nil.mp (by simpa using hocc)
    have hi : i = 0 := by
      by_contra hne
      exact hmin 0 (Nat.pos_of_ne_zero hne) (by simp [hq])
    subst hq hi
    rfl
  | cons c t' ih =>
    intro i hocc hmin
    by_cases hp : q.isPrefixOf (c :: t')
    · have hi : i = 0 := by
        by_contra hne
        exact hmin 0 (Nat.pos_of_ne_zero hne)
          (by simpa using List.isPrefixOf_iff_prefix.mp hp)
      subst hi
      unfold substrIndex?
      rw [if_pos hp]
    · have hi : i ≠ 0 := by
        intro h0
        subst h0
        exact hp (List.isPrefixOf_iff_prefix.mpr (by simpa using hocc))
      obtain ⟨i', rfl⟩ := Nat.exists_eq_succ_of_ne_zero hi
      have hocc' : q <+: t'.drop i' := by
        simpa [List.drop_succ_cons] using hocc
      have hmin' : ∀ j < i', ¬ q <+: t'.drop j := by
        intro j hj hcontra
        exact hmin (j + 1) (Nat.succ_lt_succ hj)
          (by simpa [List.drop_succ_cons] using hcontra)
      unfold substrIndex?
      rw [if_neg hp, ih i' hocc' hmin']
      rfl

theorem dropPastChar_none {c : Char} :
    ∀ {rest : List Char}, dropPastChar c rest = none → c ∉ rest := by
  intro rest
  induction rest with
  | nil => intro _; simp
  | cons x xs ih =>
    intro h
    unfold dropPastChar at h
    by_cases hx : x = c
    · rw [if_pos hx] at h; cases h
    · rw [if_neg hx] at h
      simp only [List.mem_cons, not_or]
      exact ⟨fun hc => hx hc.symm, ih h⟩

theorem dropPastChar_sublist_iff {c : Char} :
    ∀ {rest rest' : List Char}, dropPastChar c rest = some rest' →
      ∀ q' : List Char, ((c :: q').Sublist rest ↔ q'.Sublist rest') := by
  intro rest
  induction rest with
  | nil => intro rest' h; cases h
  | cons x xs ih =>
    intro rest' h q'
    unfold dropPastChar at h
    by_cases hx : x = c
    · rw [if_pos hx] at h
      cases h
      subst hx
      constructor
      · intro hsub
        cases hsub with
        | cons _ h' => exact (List.sublist_cons_self x q').trans h'
        | cons₂ _ h' => exact h'
      · intro h'
        exact h'.cons₂ x
    · rw [if_neg hx] at h
      constructor
      · intro hsub
        cases hsub with
        | cons _ h' => exact (ih h q').mp h'
        | cons₂ _ h' => exact absurd rfl hx
      · intro h'
        exact ((ih h q').mpr h').cons x

theorem subseqScore_of_sublist :
    ∀ (q rest : List Char) (s : Int), q.Sublist rest →
      subseqScore rest q s = s + CHAR_MATCH_SCORE * q.length := by
  intro q
  induction q with
  | nil => intro rest s _; simp [subseqScore]
  | cons c q' ih =>
    intro rest s h
    cases hd : dropPastChar c rest with
    | none =>
      exact absurd (h.subset (List.mem_cons_self _ _)) (dropPastChar_none hd)
    | some rest' =>
      have h' : q'.Sublist rest' := (dropPastChar_sublist_iff hd q').mp h
      unfold subseqScore
      rw [hd]
      show subseqScore rest' q' (s + CHAR_MATCH_SCORE) =
        s + CHAR_MATCH_SCORE * ((c :: q').length : Int)
      rw [ih rest' (s + CHAR_MATCH_SCORE) h']
      simp only [List.length_cons]
      push_cast
      ring

theorem subseqScore_of_not_sublist :
    ∀ (q rest : List Char) (s : Int), ¬ q.Sublist rest →
      subseqScore rest q s = 0 := by
  intro q
  induction q with
  | nil => intro rest s h; exact absurd (List.nil_sublist rest) h
  | cons c q' ih =>
    intro rest s h
    cases hd : dropPastChar c rest with
    | none => unfold subseqScore; rw [hd]
    | some rest' =>
      have h' : ¬ q'.Sublist rest' :=
        fun hq' => h ((dropPastChar_sublist_iff hd q').mpr hq')
      unfold subseqScore
      rw [hd]
      show subseqScore rest' q' (s + CHAR_MATCH_SCORE) = 0
      exact ih rest' (s + CHAR_MATCH_SCORE) h'

/-- **C6** Fuzzy match scoring (case-insensitively on lower-cased
characters): if the query occurs as a contiguous substring with first
occurrence at index `i`, the score is `1000 - 2*i`; if the query does not
occur as a substring, the score is `10` per query character exactly when
the query is an in-order subsequence of the title (the strict left-to-right
scan succeeds) and `0` otherwise; with the spec's three examples. -/
theorem fuzzy_score_correct :
    (∀ (title query : String) (i : Nat),
      lowerChars query <+: (lowerChars title).drop i →
      (∀ j < i, ¬ lowerChars query <+: (lowerChars title).drop j) →
      fuzzy_score title query = 1000 - 2 * (i : Int)) ∧
    (∀ title query : String,
      (∀ j : Nat, ¬ lowerChars query <+: (lowerChars title).drop j) →
      ((lowerChars query).Sublist (lowerChars title) →
        fuzzy_score title query = 10 * ((lowerChars query).length : Int)) ∧
      (¬ (lowerChars query).Sublist (lowerChars title) →
        fuzzy_score title query = 0)) ∧
    fuzzy_score "Attack on Titan" "titan" > 0 ∧
    fuzzy_score "Attack on Titan" "atitn" > 0 ∧
    fuzzy_score "Naruto" "xyz" = 0 := by
  refine ⟨?_, ?_, by decide, by decide, by decide⟩
  · intro title query i hocc hmin
    simp only [fuzzy_score]
    rw [substrIndex?_first (lowerChars query) (lowerChars title) i hocc hmin]
    simp only [EXACT_MATCH_SCORE, POSITION_PENALTY]
    ring
  · intro title query hno
    have hnone : substrIndex? (lowerChars query) (lowerChars title) = none := by
      cases hs : substrIndex? (lowerChars query) (lowerChars title) with
      | none => rfl
      | some i => exact absurd (substrIndex?_sound _ _ i hs) (hno i)
    constructor
    · intro hsub
      simp only [fuzzy_score]
      rw [hnone]
      show subseqScore (lowerChars title) (lowerChars query) 0 =
        10 * ((lowerChars query).length : Int)
      rw [subseqScore_of_sublist _ _ 0 hsub]
      simp [CHAR_MATCH_SCORE]
    · intro hsub
      simp only [fuzzy_score]
      rw [hnone]
      exact subseqScore_of_not_sublist _ _ 0 hsub

/-- Concrete instantiation of `fuzzy_score_correct`: `"titan"` occurs in
`"attack on titan"` first at index 10, so the score is `1000 - 2*10`. -/
theorem fuzzy_score_correct_witness :
    fuzzy_score "Attack on Titan" "titan" = 1000 - 2 * (10 : Int) :=
  fuzzy_score_correct.1 "Attack on Titan" "titan" 10 (by decide) (by decide)

/-! ## Retention sweeper (cleanup.py, `cleanup_loop`, lines 34-61) -/

/-- One file met during the walk of the download directory, together with
the oracle outcomes of the filesystem calls on it. -/
structure SweepFile where
  name : String
  /-- `os.path.getmtime`; `none` models a raised exception (lines 40-43:
  the file is skipped with `continue`). -/
  mtime : Option Int
  /-- whether `os.replace` into the archive succeeds (line 48). -/
  moveOk : Bool
  /-- whether the fallback `os.remove` succeeds (line 52). -/
  removeOk : Bool
deriving DecidableEq, Repr

/-- Per-file outcome of one sweep cycle. -/
inductive SweepAction where
  | skippedStatError
  | untouched
  | archived
  | deleted
  | removalFailedLogged
deriving DecidableEq, Repr

/-- Lines 38-55: per-file behavior of one cycle — skip on a stat error;
when `now - mtime >= file_retention_seconds`, try the archive move, fall
back to deletion, and merely log when both fail; otherwise leave the file
untouched. -/
def sweepFile (now retention : Int) (f : SweepFile) : SweepAction :=
  match f.mtime with
  | none => .skippedStatError
  | some m =>
    if retention ≤ now - m then
      if f.moveOk then .archived
      else if f.removeOk then .deleted
      else .removalFailedLogged
    else .untouched

/-- One sweep cycle over the walked files, in walk order (lines 37-55):
every file is processed independently. -/
def sweepCycle (now retention : Int) (files : List SweepFile) : List SweepAction :=
  files.map (sweepFile now retention)

/-- **C8** Retention sweep per-file behavior: each cycle produces one
outcome per walked file; an old-enough file (age ≥ retention) is archived
when the move succeeds, deleted when the move fails but deletion succeeds,
and merely logged when both fail; a younger file is left untouched; and the
cycle decomposes around any single file — a per-file failure never changes
how the files before or after it are processed. -/
theorem retention_sweep_per_file (now retention : Int) (files : List SweepFile) :
    (sweepCycle now retention files).length = files.length ∧
    (∀ (f : SweepFile) (m : Int), f.mtime = some m →
      (retention ≤ now - m → f.moveOk = true →
        sweepFile now retention f = .archived) ∧
      (retention ≤ now - m → f.moveOk = false → f.removeOk = true →
        sweepFile now retention f = .deleted) ∧
      (retention ≤ now - m → f.moveOk = false → f.removeOk = false →
        sweepFile now retention f = .removalFailedLogged) ∧
      (now - m < retention → sweepFile now retention f = .untouched)) ∧
    (∀ (pre : List SweepFile) (f : SweepFile) (post : List SweepFile),
      files = pre ++ f :: post →
      sweepCycle now retention files =
        sweepCycle now retention pre ++
          sweepFile now retention f :: sweepCycle now retention post) := by
  refine ⟨by simp [sweepCycle], ?_, ?_⟩
  · intro f m hm
    refine ⟨?_, ?_, ?_, ?_⟩
    · intro hold hmv
      simp [sweepFile, hm, if_pos hold, hmv]
    · intro hold hmv hrm
      simp [sweepFile, hm, if_pos hold, hmv, hrm]
    · intro hold hmv hrm
      simp [sweepFile, hm, if_pos hold, hmv, hrm]
    · intro hyoung
      simp [sweepFile, hm, if_neg (not_le.mpr hyoung)]
  · intro pre f post hsplit
    subst hsplit
    simp [sweepCycle]

/-- Concrete instantiation of `retention_sweep_per_file`: an old file whose
archive move fails is deleted instead. -/
theorem retention_sweep_per_file_witness :
    sweepFile 1000 100 ⟨"old.mp4", some 0, false, true⟩ = .deleted :=
  ((retention_sweep_per_file 1000 100 [⟨"old.mp4", some 0, false, true⟩]).2.1
    ⟨"old.mp4", some 0, false, true⟩ 0 rfl).2.1 (by decide) rfl rfl

end AnimeBot
